import Mathlib

/-!
Verification of the macOS IOKit hotplug backend
(`src/platform/macos_iokit/hotplug.rs`).

The backend bridges IOKit's callback-driven notification API into a
pull-based async `poll_next` interface.  We embed the Rust code shallowly:

* `io_service_t` handles are an abstract type `σ` (instantiated with `Nat`
  for concrete witnesses);
* the external collaborators `probe_device` and `get_registry_id` are fields
  of an environment record `Env`;
* the `AtomicWaker` in `Inner` is a single `Option Waker` slot whose
  `register` overwrites and whose `wake` takes the stored waker;
* the two `IoServiceIterator`s are the lists of service handles currently
  queued (IOKit appends; the Rust code only ever calls `.next()`, which
  pops from the front);
* the native side of `new` (`IOServiceMatching`, `IONotificationPortCreate`,
  the two `IOServiceAddMatchingNotification` status codes, and the initial
  contents of the two iterators) is an environment record `NativeEnv`, and
  the allocation / destruction actions performed by `new` are recorded in a
  `ResourceTrace` so that resource-leak claims are statable.
-/

namespace Nusb

/-- A task waker (`std::task::Waker`), identified abstractly. -/
abbrev Waker := Nat

/-- The device descriptor produced by the external collaborator
`probe_device` (`DeviceInfo` in the crate); opaque to this backend. -/
abbrev DeviceInfo := Nat

/-- `DeviceId(u64)`: the registry identifier wrapped at disconnect time. -/
structure DeviceId where
  id : Nat
deriving DecidableEq, Repr

/-- `HotplugEvent`: `Connected(DeviceInfo) | Disconnected(DeviceId)`. -/
inductive HotplugEvent where
  | Connected : DeviceInfo → HotplugEvent
  | Disconnected : DeviceId → HotplugEvent
deriving DecidableEq, Repr

/-- `std::task::Poll`. -/
inductive Poll (α : Type) where
  | Ready : α → Poll α
  | Pending : Poll α
deriving DecidableEq, Repr

/-- The error kinds this backend can surface (`std::io::ErrorKind`
restricted to the variants that matter here; `Other` is the one used). -/
inductive ErrorKind where
  | NotFound
  | Unsupported
  | Other
deriving DecidableEq, Repr

/-- `nusb::Error`: a kind plus a message. -/
structure Error where
  kind : ErrorKind
  message : String
deriving DecidableEq, Repr

/-- `kIOReturnSuccess` (the IOKit success status code). -/
def kIOReturnSuccess : Int := 0

/-- `struct Inner { waker: AtomicWaker }` — the heap block shared with the
native callback.  The `AtomicWaker` is a single-slot register. -/
structure Inner where
  waker : Option Waker
deriving DecidableEq, Repr

/-- `struct MacHotplugWatch`, generic over the service-handle type `σ`.
`inner` is the shared callback state; the two iterator fields hold the
queued service handles; `notification_port` is the raw port handle;
`registration` models the opaque `EventRegistration` token. -/
structure MacHotplugWatch (σ : Type) where
  inner : Inner
  terminated_iter : List σ
  matched_iter : List σ
  registration : Nat
  notification_port : Nat
deriving DecidableEq, Repr

/-- The external collaborators used by `poll_next`:
`probe_device(service) -> Option<DeviceInfo>` and
`get_registry_id(service) -> Option<u64>`. -/
structure Env (σ : Type) where
  probe_device : σ → Option DeviceInfo
  get_registry_id : σ → Option Nat

/-- Line 131: `self.inner().waker.register(cx.waker())` —
`AtomicWaker::register` stores the new waker, overwriting any previous
registration. -/
def registerPhase {σ : Type} (cx : Waker) (w : MacHotplugWatch σ) :
    MacHotplugWatch σ :=
  { w with inner := { waker := some cx } }

/-- Lines 133–139: `while let Some(s) = self.matched_iter.next() { if let
Some(dev) = probe_device(s) { return ... } else { debug!(...) } }` —
scan the arrival queue in order; the first handle that probes successfully
is returned together with the entries remaining after it; probe failures
are skipped (logged only). -/
def drainArrivals {σ : Type} (env : Env σ) :
    List σ → Option (DeviceInfo × List σ)
  | [] => none
  | s :: rest =>
    match env.probe_device s with
    | some dev => some (dev, rest)
    | none => drainArrivals env rest

/-- Lines 133–151 of `poll_next`: after the waker is registered, drain the
arrival queue; if no arrival probe succeeded, take at most one entry from
the termination queue; otherwise return `Pending`. -/
def inspectQueues {σ : Type} (env : Env σ) (w : MacHotplugWatch σ) :
    Poll HotplugEvent × MacHotplugWatch σ :=
  match drainArrivals env w.matched_iter with
  | some (dev, rest) =>
    (Poll.Ready (HotplugEvent.Connected dev), { w with matched_iter := rest })
  | none =>
    -- the while loop exhausted the arrival queue without a success
    match w.terminated_iter with
    | s :: rest =>
      match env.get_registry_id s with
      | some rid =>
        (Poll.Ready (HotplugEvent.Disconnected ⟨rid⟩),
         { w with matched_iter := [], terminated_iter := rest })
      | none =>
        -- "failed to get registry ID for disconnected device": logged,
        -- the entry `s` has been consumed by `.next()`, fall through
        (Poll.Pending, { w with matched_iter := [], terminated_iter := rest })
    | [] => (Poll.Pending, { w with matched_iter := [] })

/-- Lines 130–152: `fn poll_next(&mut self, cx: &mut Context)` —
register the waker first (line 131), then inspect the queues. -/
def poll_next {σ : Type} (env : Env σ) (cx : Waker) (w : MacHotplugWatch σ) :
    Poll HotplugEvent × MacHotplugWatch σ :=
  inspectQueues env (registerPhase cx w)

/-- Lines 165–169: the native callback.  It receives the `Inner` pointer as
context and an iterator argument it ignores; its sole effect is
`inner.waker.wake()`.  `AtomicWaker::wake` takes the registered waker out
of the slot and wakes it; the first component is the waker actually woken
(none if the slot was empty). -/
def callback (refcon : Inner) (_iterator : Nat) : Option Waker × Inner :=
  (refcon.waker, { waker := none })

/-- The native inputs to `MacHotplugWatch::new`: whether `IOServiceMatching`
returned a non-null dictionary, the status codes of the two
`IOServiceAddMatchingNotification` calls (`r1` for the terminated class,
`r2` for the first-match class), and the backlogs that the kernel places in
the two iterators at registration time. -/
structure NativeEnv (σ : Type) where
  matching_ok : Bool
  r1 : Int
  r2 : Int
  terminated0 : List σ
  matched0 : List σ

/-- Resource actions performed by one run of `new`: how many notification
ports were created / destroyed and how many `Inner` blocks were allocated
(`Box::into_raw`) / freed (`Box::from_raw` — the code never does this). -/
structure ResourceTrace where
  portsCreated : Nat
  portsDestroyed : Nat
  innerAllocated : Nat
  innerFreed : Nat
deriving DecidableEq, Repr

/-- Line 109: `while let Some(_) = matched_iter.next() {}` — the
construction-time drain loop, discarding every queued arrival. -/
def drainAll {σ : Type} : List σ → List σ
  | [] => []
  | _ :: rest => drainAll rest

/-- Lines 61–124: `MacHotplugWatch::new()`.
Returns the constructor result together with the resource trace of that
call.  Failure of `IOServiceMatching` aborts before the port is created;
failure of either registration destroys the port and returns an
`ErrorKind::Other` error — note that the `Inner` block allocated at line 73
is not freed on that path.  On success the arrival backlog is drained and
discarded and the watch is assembled. -/
def MacHotplugWatch.new {σ : Type} (env : NativeEnv σ) :
    Except Error (MacHotplugWatch σ) × ResourceTrace :=
  if env.matching_ok = false then
    (Except.error { kind := ErrorKind.Other, message := "IOServiceMatching failed" },
     { portsCreated := 0, portsDestroyed := 0, innerAllocated := 0, innerFreed := 0 })
  else
    -- IONotificationPortCreate, then Box::into_raw(Box::new(Inner { .. }))
    if env.r1 ≠ kIOReturnSuccess ∨ env.r2 ≠ kIOReturnSuccess then
      -- IONotificationPortDestroy(notification_port); return Err(..)
      (Except.error { kind := ErrorKind.Other, message := "Failed to register notification" },
       { portsCreated := 1, portsDestroyed := 1, innerAllocated := 1, innerFreed := 0 })
    else
      (Except.ok
        { inner := { waker := none }
          terminated_iter := env.terminated0
          matched_iter := drainAll env.matched0
          registration := 0
          notification_port := 0 },
       { portsCreated := 1, portsDestroyed := 0, innerAllocated := 1, innerFreed := 0 })

/-- Teardown actions a `Drop` implementation can perform. -/
inductive TeardownEffect where
  | destroyPort (port : Nat)
  | freeInner
deriving DecidableEq, Repr

/-- Lines 155–163: `impl Drop for MacHotplugWatch` — destroy the
notification port; the `Inner` block is deliberately not freed (the TODO
comment documents the leak).  The watch's fields are not otherwise
mutated; we return the (unchanged) final field values alongside the effect
list to make that frame condition statable. -/
def dropWatch {σ : Type} (w : MacHotplugWatch σ) :
    List TeardownEffect × MacHotplugWatch σ :=
  ([TeardownEffect.destroyPort w.notification_port], w)

/-- Iterate `poll_next` over a list of contexts (successive poll calls on
the same watch with no interleaved native activity), collecting the
results. -/
def pollSeq {σ : Type} (env : Env σ) :
    List Waker → MacHotplugWatch σ → List (Poll HotplugEvent) × MacHotplugWatch σ
  | [], w => ([], w)
  | cx :: cxs, w =>
    let r := poll_next env cx w
    let rest := pollSeq env cxs r.2
    (r.1 :: rest.1, rest.2)

/-- Instrumented variant of the arrival-drain loop: also reports which
queued handle produced the successful probe. -/
def drainArrivalsEmit {σ : Type} (env : Env σ) :
    List σ → Option (σ × DeviceInfo × List σ)
  | [] => none
  | s :: rest =>
    match env.probe_device s with
    | some dev => some (s, dev, rest)
    | none => drainArrivalsEmit env rest

/-- The queue entry whose consumption produces this poll call's `Ready`
event, if any: the first arrival that probes successfully, else the head of
the termination queue when its registry id extracts successfully. -/
def readySource {σ : Type} (env : Env σ) (w : MacHotplugWatch σ) : Option σ :=
  match drainArrivalsEmit env w.matched_iter with
  | some (s, _, _) => some s
  | none =>
    match w.terminated_iter with
    | s :: _ => if (env.get_registry_id s).isSome then some s else none
    | [] => none

/-- One simulated operation on a watch: the kernel enqueues an arrival or
a termination, or the consumer calls `poll_next`. -/
inductive Op where
  | arrival (s : Nat)
  | termination (s : Nat)
  | poll (cx : Waker)

/-- Simulation state for the at-most-once-delivery property: the watch's
queue entries are tagged with a unique id assigned at enqueue time,
`emitted` lists the ids of the entries whose consumption produced a
`Ready` return, and `results` logs every poll result. -/
structure Sim where
  w : MacHotplugWatch (Nat × Nat)
  nextId : Nat
  emitted : List Nat
  results : List (Poll HotplugEvent)

/-- Lift a base environment to tagged entries: probing and registry-id
extraction depend only on the underlying service handle. -/
def tagEnv (env : Env Nat) : Env (Nat × Nat) :=
  { probe_device := fun p => env.probe_device p.2
    get_registry_id := fun p => env.get_registry_id p.2 }

/-- One simulation step: the kernel appends a tagged entry to the matched
or terminated queue, or a consumer calls `poll_next`. -/
def stepSim (env : Env Nat) (st : Sim) : Op → Sim
  | Op.arrival s =>
    { st with
        w := { st.w with matched_iter := st.w.matched_iter ++ [(st.nextId, s)] }
        nextId := st.nextId + 1 }
  | Op.termination s =>
    { st with
        w := { st.w with terminated_iter := st.w.terminated_iter ++ [(st.nextId, s)] }
        nextId := st.nextId + 1 }
  | Op.poll cx =>
    let r := poll_next (tagEnv env) cx st.w
    { st with
        w := r.2
        emitted := st.emitted ++ ((readySource (tagEnv env) st.w).map Prod.fst).toList
        results := st.results ++ [r.1] }

/-- The empty watch a successful construction yields (both queues empty
apart from backlogs; here we start from nothing enqueued). -/
def sim0 : Sim :=
  { w := { inner := { waker := none }
           terminated_iter := []
           matched_iter := []
           registration := 0
           notification_port := 0 }
    nextId := 0
    emitted := []
    results := [] }

/-- Run a whole simulated schedule. -/
def runSim (env : Env Nat) (ops : List Op) : Sim :=
  ops.foldl (stepSim env) sim0

/-! ### Basic facts about the arrival-drain loop, and the per-branch
behaviour of `poll_next` (helper lemmas shared by the claim theorems) -/

theorem drainArrivals_eq_none {σ : Type} (env : Env σ) (l : List σ) :
    drainArrivals env l = none ↔ ∀ s ∈ l, env.probe_device s = none := by
  induction l with
  | nil => simp [drainArrivals]
  | cons s rest ih =>
    cases h : env.probe_device s <;> simp [drainArrivals, h, ih]

theorem drainArrivals_first_success {σ : Type} (env : Env σ)
    (pre post : List σ) (s : σ) (dev : DeviceInfo)
    (hpre : ∀ x ∈ pre, env.probe_device x = none)
    (hs : env.probe_device s = some dev) :
    drainArrivals env (pre ++ s :: post) = some (dev, post) := by
  induction pre with
  | nil => simp [drainArrivals, hs]
  | cons a pre ih =>
    have ha : env.probe_device a = none := hpre a (by simp)
    simpa [drainArrivals, ha] using ih (fun x hx => hpre x (by simp [hx]))

/-- Helper: the equation `poll_next` satisfies when the arrival queue is
`pre ++ s :: post` with every probe in `pre` failing and `s` probing
successfully. -/
theorem poll_next_eq_first_success {σ : Type} (env : Env σ) (cx : Waker)
    (w : MacHotplugWatch σ) (pre post : List σ) (s : σ) (dev : DeviceInfo)
    (hm : w.matched_iter = pre ++ s :: post)
    (hpre : ∀ x ∈ pre, env.probe_device x = none)
    (hs : env.probe_device s = some dev) :
    poll_next env cx w =
      (Poll.Ready (HotplugEvent.Connected dev),
       { w with inner := { waker := some cx }, matched_iter := post }) := by
  unfold poll_next inspectQueues registerPhase
  simp [hm, drainArrivals_first_success env pre post s dev hpre hs]

/-- Helper: the equation `poll_next` satisfies when every arrival probe
fails and the head of the termination queue yields a registry id. -/
theorem poll_next_eq_term_success {σ : Type} (env : Env σ) (cx : Waker)
    (w : MacHotplugWatch σ) (s : σ) (rest : List σ) (rid : Nat)
    (hm : ∀ x ∈ w.matched_iter, env.probe_device x = none)
    (ht : w.terminated_iter = s :: rest)
    (hrid : env.get_registry_id s = some rid) :
    poll_next env cx w =
      (Poll.Ready (HotplugEvent.Disconnected ⟨rid⟩),
       { w with inner := { waker := some cx },
                matched_iter := [], terminated_iter := rest }) := by
  have hd : drainArrivals env w.matched_iter = none :=
    (drainArrivals_eq_none env w.matched_iter).mpr hm
  unfold poll_next inspectQueues registerPhase
  simp [hd, ht, hrid]

/-- Helper: the equation `poll_next` satisfies when every arrival probe
fails and the head of the termination queue has no extractable registry
id — the head is still consumed. -/
theorem poll_next_eq_term_failure {σ : Type} (env : Env σ) (cx : Waker)
    (w : MacHotplugWatch σ) (s : σ) (rest : List σ)
    (hm : ∀ x ∈ w.matched_iter, env.probe_device x = none)
    (ht : w.terminated_iter = s :: rest)
    (hg : env.get_registry_id s = none) :
    poll_next env cx w =
      (Poll.Pending,
       { w with inner := { waker := some cx },
                matched_iter := [], terminated_iter := rest }) := by
  have hd : drainArrivals env w.matched_iter = none :=
    (drainArrivals_eq_none env w.matched_iter).mpr hm
  unfold poll_next inspectQueues registerPhase
  simp [hd, ht, hg]

/-- Helper: the equation `poll_next` satisfies when every arrival probe
fails and the termination queue is empty. -/
theorem poll_next_eq_both_empty {σ : Type} (env : Env σ) (cx : Waker)
    (w : MacHotplugWatch σ)
    (hm : ∀ x ∈ w.matched_iter, env.probe_device x = none)
    (ht : w.terminated_iter = []) :
    poll_next env cx w =
      (Poll.Pending, { w with inner := { waker := some cx }, matched_iter := [] }) := by
  have hd : drainArrivals env w.matched_iter = none :=
    (drainArrivals_eq_none env w.matched_iter).mpr hm
  unfold poll_next inspectQueues registerPhase
  simp [hd, ht]

/-- C1 — In every `poll_next` call the arrival queue is inspected before
the termination queue and drained in order: with failing probes `pre`
queued before the first successfully probed handle `s`, the failures are
skipped (logged only) and probing continues, the first success returns
`Ready (Connected dev)` immediately, the entries after `s` stay queued for
a later poll, and the termination queue is left completely untouched in
that call. -/
theorem poll_next_arrival_first_success {σ : Type} (env : Env σ) (cx : Waker)
    (w : MacHotplugWatch σ) (pre post : List σ) (s : σ) (dev : DeviceInfo)
    (hm : w.matched_iter = pre ++ s :: post)
    (hpre : ∀ x ∈ pre, env.probe_device x = none)
    (hs : env.probe_device s = some dev) :
    poll_next env cx w =
      (Poll.Ready (HotplugEvent.Connected dev),
       { w with inner := { waker := some cx }, matched_iter := post }) :=
  poll_next_eq_first_success env cx w pre post s dev hm hpre hs

/-- Witness for C1: a concrete queue `[1, 2, 3]` whose first two probes
fail and whose third succeeds; the termination queue `[9]` is untouched. -/
theorem poll_next_arrival_first_success_witness :
    (([1, 2, 3] : List Nat) = [1, 2] ++ 3 :: []) ∧
    (∀ x ∈ [1, 2], (fun n => if n = 3 then some 30 else none) x = none) ∧
    ((fun n => if n = 3 then some 30 else none) 3 = some 30) ∧
    poll_next
        { probe_device := fun n => if n = 3 then some 30 else none
          get_registry_id := fun _ => none }
        7
        { inner := { waker := none }, terminated_iter := [9],
          matched_iter := [1, 2, 3], registration := 0, notification_port := 0 } =
      (Poll.Ready (HotplugEvent.Connected 30),
       { inner := { waker := some 7 }, terminated_iter := [9],
         matched_iter := [], registration := 0, notification_port := 0 }) :=
  ⟨by decide, by decide, by decide,
   poll_next_arrival_first_success
     { probe_device := fun n => if n = 3 then some 30 else none
       get_registry_id := fun _ => none }
     7
     { inner := { waker := none }, terminated_iter := [9],
       matched_iter := [1, 2, 3], registration := 0, notification_port := 0 }
     [1, 2] [] 3 30 (by decide) (by decide) (by decide)⟩

/-- C2 — when every arrival probe fails, at most one entry is taken from
the termination queue: a successful registry-id extraction on the head
yields `Ready (Disconnected (DeviceId rid))` with exactly the head
consumed; a failed extraction consumes the head, is only logged, and the
call returns `Pending` without examining any further termination entry;
with both queues exhausted the call returns `Pending`. -/
theorem poll_next_termination_cases {σ : Type} (env : Env σ) (cx : Waker)
    (w : MacHotplugWatch σ)
    (hm : ∀ x ∈ w.matched_iter, env.probe_device x = none) :
    (∀ s rest, w.terminated_iter = s :: rest →
      (∀ rid, env.get_registry_id s = some rid →
        poll_next env cx w =
          (Poll.Ready (HotplugEvent.Disconnected ⟨rid⟩),
           { w with inner := { waker := some cx },
                    matched_iter := [], terminated_iter := rest })) ∧
      (env.get_registry_id s = none →
        poll_next env cx w =
          (Poll.Pending,
           { w with inner := { waker := some cx },
                    matched_iter := [], terminated_iter := rest }))) ∧
    (w.terminated_iter = [] →
      poll_next env cx w =
        (Poll.Pending, { w with inner := { waker := some cx }, matched_iter := [] })) :=
  ⟨fun s rest ht =>
    ⟨fun rid hrid => poll_next_eq_term_success env cx w s rest rid hm ht hrid,
     fun hg => poll_next_eq_term_failure env cx w s rest hm ht hg⟩,
   fun ht => poll_next_eq_both_empty env cx w hm ht⟩

/-- Witness for C2: a concrete termination queue `[5, 6]` whose head
extracts successfully while every arrival probe fails. -/
theorem poll_next_termination_cases_witness :
    (∀ x ∈ [4], (fun (_ : Nat) => (none : Option DeviceInfo)) x = none) ∧
    (([5, 6] : List Nat) = 5 :: [6]) ∧
    ((fun n => if n = 5 then some 50 else none) 5 = some (50 : Nat)) ∧
    poll_next
        { probe_device := fun _ => none
          get_registry_id := fun n => if n = 5 then some 50 else none }
        3
        { inner := { waker := some 2 }, terminated_iter := [5, 6],
          matched_iter := [4], registration := 0, notification_port := 0 } =
      (Poll.Ready (HotplugEvent.Disconnected ⟨50⟩),
       { inner := { waker := some 3 }, terminated_iter := [6],
         matched_iter := [], registration := 0, notification_port := 0 }) := by
  refine ⟨by decide, by decide, by decide, ?_⟩
  exact ((poll_next_termination_cases
    { probe_device := fun _ => none
      get_registry_id := fun n => if n = 5 then some 50 else none }
    3
    { inner := { waker := some 2 }, terminated_iter := [5, 6],
      matched_iter := [4], registration := 0, notification_port := 0 }
    (by decide)).1 5 [6] (by decide)).1 50 (by decide)

/-! ### Construction: registration failure and the arrival-backlog drain -/

/-- Concrete native environment in which the first registration fails. -/
def envRegFail1 : NativeEnv Nat :=
  { matching_ok := true
    r1 := 1
    r2 := 0
    terminated0 := []
    matched0 := [] }

/-- Concrete native environment in which the second registration fails. -/
def envRegFail2 : NativeEnv Nat :=
  { matching_ok := true
    r1 := 0
    r2 := 7
    terminated0 := []
    matched0 := [] }

/-- Concrete native environment for a successful construction with an
arrival backlog of two already-connected devices. -/
def envOkBacklog : NativeEnv Nat :=
  { matching_ok := true
    r1 := 0
    r2 := 0
    terminated0 := []
    matched0 := [11, 12] }

/-- Concrete native environment for a successful construction with one
pending termination entry (service `6`) and one arrival-backlog entry. -/
def envOkTermPending : NativeEnv Nat :=
  { matching_ok := true
    r1 := 0
    r2 := 0
    terminated0 := [6]
    matched0 := [1] }

/-- C3 counterexample — with `IOServiceMatching` succeeding and the first
registration returning a failure status (`envRegFail1`), `new` does return
an `ErrorKind::Other` error and destroys the port, but the `Inner` block
allocated by `Box::into_raw` during that very call is never freed: an
allocation made by the constructor call remains live after the failure
return, refuting the claim that nothing allocated during the call stays
live. -/
theorem new_registration_failure_leaks_inner :
    (MacHotplugWatch.new envRegFail1).1 =
      Except.error { kind := ErrorKind.Other, message := "Failed to register notification" } ∧
    (MacHotplugWatch.new envRegFail1).2.portsDestroyed = 1 ∧
    ¬ (MacHotplugWatch.new envRegFail1).2.innerAllocated =
        (MacHotplugWatch.new envRegFail1).2.innerFreed := by
  refine ⟨rfl, rfl, ?_⟩
  decide

/-- C3 (amended) — if either registration returns a non-success status,
`new` destroys the one port it created and returns an `ErrorKind::Other`
error, and no watch is created; however the `Inner` block allocated during
the call is leaked (allocated once, never freed) rather than reclaimed. -/
theorem new_registration_failure_behavior {σ : Type} (env : NativeEnv σ)
    (hok : env.matching_ok = true)
    (hfail : env.r1 ≠ kIOReturnSuccess ∨ env.r2 ≠ kIOReturnSuccess) :
    (MacHotplugWatch.new env).1 =
      Except.error { kind := ErrorKind.Other, message := "Failed to register notification" } ∧
    (MacHotplugWatch.new env).2.portsCreated = 1 ∧
    (MacHotplugWatch.new env).2.portsDestroyed = 1 ∧
    (MacHotplugWatch.new env).2.innerAllocated = 1 ∧
    (MacHotplugWatch.new env).2.innerFreed = 0 := by
  unfold MacHotplugWatch.new
  rw [if_neg (by simp [hok]), if_pos hfail]
  exact ⟨rfl, rfl, rfl, rfl, rfl⟩

/-- Witness for the amended C3 at `envRegFail2` (second registration
fails). -/
theorem new_registration_failure_behavior_witness :
    envRegFail2.matching_ok = true ∧
    (envRegFail2.r1 ≠ kIOReturnSuccess ∨ envRegFail2.r2 ≠ kIOReturnSuccess) ∧
    (MacHotplugWatch.new envRegFail2).1 =
      Except.error { kind := ErrorKind.Other, message := "Failed to register notification" } ∧
    (MacHotplugWatch.new envRegFail2).2.innerFreed = 0 := by
  have h := new_registration_failure_behavior envRegFail2 (by decide) (Or.inr (by decide))
  exact ⟨by decide, Or.inr (by decide), h.1, h.2.2.2.2⟩

theorem drainAll_eq_nil {σ : Type} (l : List σ) : drainAll l = [] := by
  induction l with
  | nil => rfl
  | cons a rest ih => simpa [drainAll] using ih

/-- Inversion of a successful construction: the field values of the watch
and the resource trace. -/
theorem new_ok_inversion {σ : Type} (env : NativeEnv σ) (w : MacHotplugWatch σ)
    (t : ResourceTrace) (h : MacHotplugWatch.new env = (Except.ok w, t)) :
    w = { inner := { waker := none }
          terminated_iter := env.terminated0
          matched_iter := []
          registration := 0
          notification_port := 0 } ∧
    t = { portsCreated := 1, portsDestroyed := 0, innerAllocated := 1, innerFreed := 0 } := by
  unfold MacHotplugWatch.new at h
  by_cases h1 : env.matching_ok = false
  · rw [if_pos h1] at h
    simp at h
  · rw [if_neg h1] at h
    by_cases h2 : env.r1 ≠ kIOReturnSuccess ∨ env.r2 ≠ kIOReturnSuccess
    · rw [if_pos h2] at h
      simp at h
    · rw [if_neg h2] at h
      have hw := congrArg Prod.fst h
      have ht := congrArg Prod.snd h
      simp at hw ht
      exact ⟨by rw [← hw, drainAll_eq_nil], ht.symm⟩

/-- Helper: after a poll on a watch with an empty arrival queue, the
arrival queue is still empty and the result is never a `Connected`
event. -/
theorem poll_next_empty_matched {σ : Type} (env : Env σ) (cx : Waker)
    (w : MacHotplugWatch σ) (hm : w.matched_iter = []) :
    (poll_next env cx w).2.matched_iter = [] ∧
    ∀ dev, (poll_next env cx w).1 ≠ Poll.Ready (HotplugEvent.Connected dev) := by
  unfold poll_next inspectQueues registerPhase
  simp only [hm]
  cases ht : w.terminated_iter with
  | nil => simp [drainArrivals, ht]
  | cons s rest =>
    cases hg : env.get_registry_id s <;> simp [drainArrivals, ht, hg]

/-- C4 — a successful `new` leaves the arrival iterator empty (the
already-connected backlog `matched0` is drained and every entry
discarded), and consequently no sequence of subsequent `poll_next` calls
ever returns a `Connected` event for a pre-construction arrival: with no
new arrival enqueued after construction, `Connected` is never produced at
all. -/
theorem new_success_drains_arrival_backlog {σ : Type} (env : NativeEnv σ)
    (w : MacHotplugWatch σ) (t : ResourceTrace)
    (h : MacHotplugWatch.new env = (Except.ok w, t)) :
    w.matched_iter = [] ∧
    ∀ (penv : Env σ) (cxs : List Waker) (dev : DeviceInfo),
      Poll.Ready (HotplugEvent.Connected dev) ∉ (pollSeq penv cxs w).1 := by
  obtain ⟨hw, -⟩ := new_ok_inversion env w t h
  have hm : w.matched_iter = [] := by rw [hw]
  refine ⟨hm, ?_⟩
  intro penv cxs dev
  clear h hw
  induction cxs generalizing w with
  | nil => simp [pollSeq]
  | cons cx cxs ih =>
    obtain ⟨hm2, hne⟩ := poll_next_empty_matched penv cx w hm
    simp only [pollSeq, List.mem_cons]
    rintro (hc | hc)
    · exact hne dev hc.symm
    · exact ih _ hm2 hc

/-- The watch produced by a successful construction from a backlog-only
environment: both iterators empty, no waker registered. -/
def freshWatch : MacHotplugWatch Nat :=
  { inner := { waker := none }
    terminated_iter := []
    matched_iter := []
    registration := 0
    notification_port := 0 }

/-- Witness for C4: constructing from `envOkBacklog` (two backlogged
arrivals) yields an empty arrival iterator, and poll sequences on the
result produce no `Connected` event. -/
theorem new_success_drains_arrival_backlog_witness :
    MacHotplugWatch.new envOkBacklog =
      (Except.ok freshWatch,
       { portsCreated := 1, portsDestroyed := 0, innerAllocated := 1, innerFreed := 0 }) ∧
    (freshWatch.matched_iter = [] ∧
     ∀ (penv : Env Nat) (cxs : List Waker) (dev : DeviceInfo),
       Poll.Ready (HotplugEvent.Connected dev) ∉ (pollSeq penv cxs freshWatch).1) :=
  ⟨rfl,
   new_success_drains_arrival_backlog envOkBacklog freshWatch
     { portsCreated := 1, portsDestroyed := 0, innerAllocated := 1, innerFreed := 0 } rfl⟩

/-! ### Waker registration and the native callback -/

/-- Helper: queue inspection never touches the `Inner` block, so the waker
slot after a full `poll_next` is exactly what registration stored. -/
theorem inspectQueues_inner {σ : Type} (env : Env σ) (w : MacHotplugWatch σ) :
    (inspectQueues env w).2.inner = w.inner := by
  unfold inspectQueues
  split
  · rfl
  · split
    · split
      · rfl
      · rfl
    · rfl

/-- Helper: after any `poll_next env cx w`, the waker slot holds `cx`. -/
theorem poll_next_inner {σ : Type} (env : Env σ) (cx : Waker)
    (w : MacHotplugWatch σ) :
    (poll_next env cx w).2.inner = { waker := some cx } := by
  unfold poll_next
  rw [inspectQueues_inner]
  unfold registerPhase
  rfl

/-- C5 — every `poll_next` call stores the calling context's waker in the
single `Inner.waker` slot before the queues are inspected, overwriting any
previous registration: `poll_next` is literally inspection applied after
registration, registration leaves both queues untouched and the call's
outcome does not depend on the previously stored waker, and on every exit
path (including early `Ready` returns) the slot holds the new waker — so a
native callback firing at any time after registration (in particular for a
notification enqueued after the queues were inspected) wakes precisely
this poller, and only the most recent poller's waker is retained. -/
theorem poll_next_registers_waker {σ : Type} (env : Env σ) (cx : Waker)
    (w : MacHotplugWatch σ) :
    poll_next env cx w = inspectQueues env (registerPhase cx w) ∧
    (registerPhase cx w).inner = { waker := some cx } ∧
    (registerPhase cx w).matched_iter = w.matched_iter ∧
    (registerPhase cx w).terminated_iter = w.terminated_iter ∧
    (∀ i : Inner, poll_next env cx { w with inner := i } = poll_next env cx w) ∧
    (poll_next env cx w).2.inner = { waker := some cx } ∧
    (∀ it : Nat, (callback (poll_next env cx w).2.inner it).1 = some cx) := by
  refine ⟨rfl, ?_, rfl, rfl, fun i => rfl,
    poll_next_inner env cx w, fun it => ?_⟩
  · unfold registerPhase
    rfl
  · rw [poll_next_inner env cx w]
    rfl

/-- C8 — the native callback's sole effect is to take and wake the waker
currently registered in `Inner`: it returns exactly the registered waker
(waking nothing when the slot is empty), clears the slot so a single
firing wakes at most once, ignores its iterator argument, and when it
fires after a `poll_next` that returned `Pending` it wakes that poller's
parked waker exactly once — a second firing with no re-registration wakes
nobody. -/
theorem callback_wakes_registered_once {σ : Type} (env : Env σ) (cx : Waker)
    (w : MacHotplugWatch σ) (it it2 : Nat) :
    (∀ i : Inner, callback i it = (i.waker, { waker := none })) ∧
    (callback { waker := none } it).1 = none ∧
    (∀ i : Inner, callback i it = callback i it2) ∧
    ((poll_next env cx w).1 = Poll.Pending →
      (callback (poll_next env cx w).2.inner it).1 = some cx ∧
      (callback (callback (poll_next env cx w).2.inner it).2 it2).1 = none) := by
  refine ⟨fun i => rfl, rfl, fun i => rfl, fun _ => ⟨?_, rfl⟩⟩
  rw [poll_next_inner env cx w]
  rfl

/-- Witness for C8 on a concrete pending poll (both queues empty): the
callback wakes waker `4`, and a second firing wakes nobody. -/
theorem callback_wakes_registered_once_witness :
    (poll_next { probe_device := fun (_ : Nat) => none, get_registry_id := fun _ => none }
        4 freshWatch).1 = Poll.Pending ∧
    ((callback (poll_next
          { probe_device := fun (_ : Nat) => none, get_registry_id := fun _ => none }
          4 freshWatch).2.inner 0).1 = some 4 ∧
     (callback (callback (poll_next
          { probe_device := fun (_ : Nat) => none, get_registry_id := fun _ => none }
          4 freshWatch).2.inner 0).2 1).1 = none) :=
  ⟨rfl,
   (callback_wakes_registered_once
      { probe_device := fun (_ : Nat) => none, get_registry_id := fun _ => none }
      4 freshWatch 0 1).2.2.2 rfl⟩

/-! ### Teardown -/

/-- C7 — dropping a watch obtained from a successful `new` destroys the
notification port exactly once over the object's lifetime: the constructor
created one port and destroyed none on the success path, and the teardown
path emits exactly one `destroyPort` effect for the watch's port and no
`freeInner` effect — the `Inner` allocation (allocated once, freed zero
times) stays live after drop, and no field of the watch is mutated by
teardown. -/
theorem dropWatch_destroys_port_once {σ : Type} (env : NativeEnv σ)
    (w : MacHotplugWatch σ) (t : ResourceTrace)
    (h : MacHotplugWatch.new env = (Except.ok w, t)) :
    (dropWatch w).1 = [TeardownEffect.destroyPort w.notification_port] ∧
    List.count (TeardownEffect.destroyPort w.notification_port) (dropWatch w).1 = 1 ∧
    TeardownEffect.freeInner ∉ (dropWatch w).1 ∧
    (dropWatch w).2 = w ∧
    t.portsCreated = 1 ∧ t.portsDestroyed = 0 ∧
    t.innerAllocated = 1 ∧ t.innerFreed = 0 := by
  obtain ⟨-, ht⟩ := new_ok_inversion env w t h
  subst ht
  exact ⟨rfl, by simp [dropWatch], by simp [dropWatch], rfl, rfl, rfl, rfl, rfl⟩

/-- Witness for C7 at the concrete successful construction from
`envOkTermPending`. -/
theorem dropWatch_destroys_port_once_witness :
    MacHotplugWatch.new envOkTermPending =
      (Except.ok
        { inner := { waker := none }
          terminated_iter := [6]
          matched_iter := []
          registration := 0
          notification_port := 0 },
       { portsCreated := 1, portsDestroyed := 0, innerAllocated := 1, innerFreed := 0 }) ∧
    ((dropWatch
        { inner := { waker := none }
          terminated_iter := ([6] : List Nat)
          matched_iter := []
          registration := 0
          notification_port := 0 }).1 = [TeardownEffect.destroyPort 0] ∧
     TeardownEffect.freeInner ∉
      (dropWatch
        { inner := { waker := none }
          terminated_iter := ([6] : List Nat)
          matched_iter := []
          registration := 0
          notification_port := 0 }).1) := by
  have h := dropWatch_destroys_port_once envOkTermPending
    { inner := { waker := none }
      terminated_iter := [6]
      matched_iter := []
      registration := 0
      notification_port := 0 }
    { portsCreated := 1, portsDestroyed := 0, innerAllocated := 1, innerFreed := 0 }
    rfl
  exact ⟨rfl, h.1, h.2.2.1⟩

/-! ### Consumption of failed termination entries -/

/-- Helper: one poll leaves the termination queue equal to itself or its
tail — entries are only ever consumed from the front, never re-queued. -/
theorem poll_next_terminated_suffix {σ : Type} (env : Env σ) (cx : Waker)
    (w : MacHotplugWatch σ) :
    (poll_next env cx w).2.terminated_iter <:+ w.terminated_iter := by
  obtain ⟨i, t, m, reg, port⟩ := w
  unfold poll_next inspectQueues registerPhase
  cases hd : drainArrivals env m with
  | some p =>
    cases p with | mk dev rest => simp
  | none =>
    cases t with
    | nil => simp
    | cons s rest =>
      cases hg : env.get_registry_id s <;> simp [hg]

/-- Helper: over any further poll sequence the termination queue only
shrinks from the front. -/
theorem pollSeq_terminated_suffix {σ : Type} (env : Env σ) (cxs : List Waker)
    (w : MacHotplugWatch σ) :
    (pollSeq env cxs w).2.terminated_iter <:+ w.terminated_iter := by
  induction cxs generalizing w with
  | nil => exact List.suffix_refl _
  | cons cx cxs ih =>
    exact List.IsSuffix.trans (ih (poll_next env cx w).2)
      (poll_next_terminated_suffix env cx w)

/-- C9 — when every arrival probe fails and the head `s` of the termination
queue has no extractable registry id, the poll consumes `s` permanently:
the call returns `Pending` with the termination queue now exactly `rest`,
so no `Disconnected` event is ever produced for `s`, and every later poll
sequence operates on a suffix of `rest` — the entry `s` is never
re-examined. -/
theorem poll_next_failed_registry_consumes {σ : Type} (env : Env σ) (cx : Waker)
    (w : MacHotplugWatch σ) (s : σ) (rest : List σ)
    (hm : ∀ x ∈ w.matched_iter, env.probe_device x = none)
    (ht : w.terminated_iter = s :: rest)
    (hg : env.get_registry_id s = none) :
    poll_next env cx w =
      (Poll.Pending,
       { w with inner := { waker := some cx },
                matched_iter := [], terminated_iter := rest }) ∧
    ∀ (env2 : Env σ) (cxs : List Waker),
      (pollSeq env2 cxs (poll_next env cx w).2).2.terminated_iter <:+ rest := by
  have hmain := poll_next_eq_term_failure env cx w s rest hm ht hg
  refine ⟨hmain, fun env2 cxs => ?_⟩
  rw [hmain]
  simpa using pollSeq_terminated_suffix env2 cxs
    { w with inner := { waker := some cx },
             matched_iter := [], terminated_iter := rest }

/-- Witness for C9 on a concrete termination queue `[7, 8]` whose head has
no registry id. -/
theorem poll_next_failed_registry_consumes_witness :
    (∀ x ∈ ([] : List Nat),
      (fun (_ : Nat) => (none : Option DeviceInfo)) x = none) ∧
    (([7, 8] : List Nat) = 7 :: [8]) ∧
    ((fun n => if n = 8 then some 80 else none) 7 = (none : Option Nat)) ∧
    poll_next
        { probe_device := fun (_ : Nat) => none
          get_registry_id := fun n => if n = 8 then some 80 else none }
        2
        { inner := { waker := none }
          terminated_iter := [7, 8]
          matched_iter := []
          registration := 0
          notification_port := 0 } =
      (Poll.Pending,
       { inner := { waker := some 2 }
         terminated_iter := [8]
         matched_iter := []
         registration := 0
         notification_port := 0 }) := by
  refine ⟨by simp, rfl, by decide, ?_⟩
  exact (poll_next_failed_registry_consumes
    { probe_device := fun (_ : Nat) => none
      get_registry_id := fun n => if n = 8 then some 80 else none }
    2
    { inner := { waker := none }
      terminated_iter := [7, 8]
      matched_iter := []
      registration := 0
      notification_port := 0 }
    7 [8] (by simp) rfl (by decide)).1

/-- C10 — a successful `new` drains only the arrival backlog: the
termination backlog `terminated0` is carried into the watch untouched, and
if it is non-empty with an extractable registry id at its head, the very
next `poll_next` reports it as `Ready (Disconnected (DeviceId rid))`. -/
theorem new_preserves_termination_backlog {σ : Type} (env : NativeEnv σ)
    (w : MacHotplugWatch σ) (t : ResourceTrace)
    (h : MacHotplugWatch.new env = (Except.ok w, t)) :
    w.terminated_iter = env.terminated0 ∧
    ∀ (penv : Env σ) (cx : Waker) (s : σ) (rest : List σ) (rid : Nat),
      env.terminated0 = s :: rest →
      penv.get_registry_id s = some rid →
      poll_next penv cx w =
        (Poll.Ready (HotplugEvent.Disconnected ⟨rid⟩),
         { w with inner := { waker := some cx },
                  matched_iter := [], terminated_iter := rest }) := by
  obtain ⟨hw, -⟩ := new_ok_inversion env w t h
  have hterm : w.terminated_iter = env.terminated0 := by rw [hw]
  have hmatch : w.matched_iter = [] := by rw [hw]
  refine ⟨hterm, fun penv cx s rest rid ht hrid => ?_⟩
  have hm : ∀ x ∈ w.matched_iter, penv.probe_device x = none := by
    rw [hmatch]; intro x hx; cases hx
  exact poll_next_eq_term_success penv cx w s rest rid hm (by rw [hterm, ht]) hrid

/-- Witness for C10: the termination entry `6` enqueued before construction
(`envOkTermPending`) is reported by the first poll after construction. -/
theorem new_preserves_termination_backlog_witness :
    MacHotplugWatch.new envOkTermPending =
      (Except.ok
        { inner := { waker := none }
          terminated_iter := [6]
          matched_iter := []
          registration := 0
          notification_port := 0 },
       { portsCreated := 1, portsDestroyed := 0, innerAllocated := 1, innerFreed := 0 }) ∧
    (envOkTermPending.terminated0 = 6 :: []) ∧
    ((fun n => if n = 6 then some 60 else none) 6 = some (60 : Nat)) ∧
    poll_next
        { probe_device := fun (_ : Nat) => none
          get_registry_id := fun n => if n = 6 then some 60 else none }
        1
        { inner := { waker := none }
          terminated_iter := [6]
          matched_iter := []
          registration := 0
          notification_port := 0 } =
      (Poll.Ready (HotplugEvent.Disconnected ⟨60⟩),
       { inner := { waker := some 1 }
         terminated_iter := []
         matched_iter := []
         registration := 0
         notification_port := 0 }) := by
  refine ⟨rfl, rfl, by decide, ?_⟩
  exact (new_preserves_termination_backlog envOkTermPending
    { inner := { waker := none }
      terminated_iter := [6]
      matched_iter := []
      registration := 0
      notification_port := 0 }
    { portsCreated := 1, portsDestroyed := 0, innerAllocated := 1, innerFreed := 0 }
    rfl).2
    { probe_device := fun (_ : Nat) => none
      get_registry_id := fun n => if n = 6 then some 60 else none }
    1 6 [] 60 rfl (by decide)

/-! ### At-most-once delivery (C6): the tagged-entry simulation -/

/-- The ids of all entries currently queued in a tagged watch. -/
def watchIds (w : MacHotplugWatch (Nat × Nat)) : List Nat :=
  w.matched_iter.map Prod.fst ++ w.terminated_iter.map Prod.fst

/-- The ids of all entries that are either still queued or already emitted. -/
def simIds (st : Sim) : List Nat :=
  watchIds st.w ++ st.emitted

/-- Whether a poll result is a `Ready` event. -/
def isReady : Poll HotplugEvent → Bool
  | Poll.Ready _ => true
  | Poll.Pending => false

/-- The number of `Ready` events in a list of poll results. -/
def countReady (rs : List (Poll HotplugEvent)) : Nat :=
  (rs.filter isReady).length

theorem drainArrivalsEmit_eq_none {σ : Type} (env : Env σ) (l : List σ) :
    drainArrivalsEmit env l = none ↔ ∀ s ∈ l, env.probe_device s = none := by
  induction l with
  | nil => simp [drainArrivalsEmit]
  | cons s rest ih =>
    cases h : env.probe_device s <;> simp [drainArrivalsEmit, h, ih]

theorem drainArrivalsEmit_some_decomp {σ : Type} (env : Env σ) :
    ∀ (l : List σ) (s : σ) (dev : DeviceInfo) (post : List σ),
      drainArrivalsEmit env l = some (s, dev, post) →
      ∃ pre, l = pre ++ s :: post ∧ (∀ x ∈ pre, env.probe_device x = none) ∧
        env.probe_device s = some dev := by
  intro l
  induction l with
  | nil =>
    intro s dev post h
    simp [drainArrivalsEmit] at h
  | cons a rest ih =>
    intro s dev post h
    cases hp : env.probe_device a with
    | some d =>
      simp only [drainArrivalsEmit, hp] at h
      obtain ⟨h1, h2, h3⟩ := by simpa using h
      subst h1; subst h2; subst h3
      exact ⟨[], rfl, by simp, hp⟩
    | none =>
      simp only [drainArrivalsEmit, hp] at h
      obtain ⟨pre, hl, hpre, hs⟩ := ih s dev post h
      refine ⟨a :: pre, by simp [hl], ?_, hs⟩
      intro x hx
      rcases List.mem_cons.mp hx with hx | hx
      · subst hx; exact hp
      · exact hpre x hx

/-- Helper: one poll call moves the id of the consumed entry (if any) from
the queues to the emitted list and discards failed entries; it never adds
an id, so the combined id list only shrinks (up to permutation). -/
theorem poll_next_ids_subperm (env : Env (Nat × Nat)) (cx : Waker)
    (w : MacHotplugWatch (Nat × Nat)) (E : List Nat) :
    List.Subperm
      (watchIds (poll_next env cx w).2 ++
        (E ++ ((readySource env w).map Prod.fst).toList))
      (watchIds w ++ E) := by
  cases hd : drainArrivalsEmit env w.matched_iter with
  | some p =>
    obtain ⟨s, dev, post⟩ := p
    obtain ⟨pre, hm, hpre, hs⟩ := drainArrivalsEmit_some_decomp env _ s dev post hd
    have hpoll := poll_next_eq_first_success env cx w pre post s dev hm hpre hs
    have hrs : readySource env w = some s := by
      unfold readySource
      rw [hd]
    rw [hpoll, hrs]
    simp only [watchIds, hm, Option.map_some', Option.toList_some, List.map_append,
      List.map_cons, List.append_assoc, List.cons_append]
    refine ⟨s.1 :: (post.map Prod.fst ++ (w.terminated_iter.map Prod.fst ++ E)), ?_, ?_⟩
    · have hperm := (List.perm_append_singleton s.1
        (post.map Prod.fst ++ (w.terminated_iter.map Prod.fst ++ E))).symm
      simpa [List.append_assoc] using hperm
    · exact List.sublist_append_right (pre.map Prod.fst) _
  | none =>
    have hall : ∀ x ∈ w.matched_iter, env.probe_device x = none :=
      (drainArrivalsEmit_eq_none env w.matched_iter).mp hd
    cases ht : w.terminated_iter with
    | nil =>
      have hpoll := poll_next_eq_both_empty env cx w hall ht
      have hrs : readySource env w = none := by
        unfold readySource
        rw [hd, ht]
      rw [hpoll, hrs]
      simp only [watchIds, ht, Option.map_none', Option.toList_none, List.map_nil,
        List.append_nil, List.nil_append, List.append_assoc]
      exact (List.sublist_append_right (w.matched_iter.map Prod.fst) E).subperm
    | cons s rest =>
      cases hg : env.get_registry_id s with
      | some rid =>
        have hpoll := poll_next_eq_term_success env cx w s rest rid hall ht hg
        have hrs : readySource env w = some s := by
          unfold readySource
          rw [hd, ht]
          simp [hg]
        rw [hpoll, hrs]
        simp only [watchIds, ht, Option.map_some', Option.toList_some, List.map_nil,
          List.map_cons, List.nil_append, List.append_assoc, List.cons_append]
        refine ⟨s.1 :: (rest.map Prod.fst ++ E), ?_, ?_⟩
        · have hperm := (List.perm_append_singleton s.1
            (rest.map Prod.fst ++ E)).symm
          simpa [List.append_assoc] using hperm
        · exact List.sublist_append_right (w.matched_iter.map Prod.fst) _
      | none =>
        have hpoll := poll_next_eq_term_failure env cx w s rest hall ht hg
        have hrs : readySource env w = none := by
          unfold readySource
          rw [hd, ht]
          simp [hg]
        rw [hpoll, hrs]
        simp only [watchIds, ht, Option.map_none', Option.toList_none, List.map_nil,
          List.map_cons, List.nil_append, List.append_nil, List.append_assoc,
          List.cons_append]
        refine List.Sublist.subperm ?_
        exact (List.sublist_cons_self s.1 (rest.map Prod.fst ++ E)).trans
          (List.sublist_append_right (w.matched_iter.map Prod.fst)
            (s.1 :: (rest.map Prod.fst ++ E)))

/-- Helper: a poll returns `Ready` exactly when some queue entry is
consumed successfully (the entry `readySource` designates). -/
theorem poll_next_isReady_iff (env : Env (Nat × Nat)) (cx : Waker)
    (w : MacHotplugWatch (Nat × Nat)) :
    isReady (poll_next env cx w).1 = (readySource env w).isSome := by
  cases hd : drainArrivalsEmit env w.matched_iter with
  | some p =>
    obtain ⟨s, dev, post⟩ := p
    obtain ⟨pre, hm, hpre, hs⟩ := drainArrivalsEmit_some_decomp env _ s dev post hd
    have hpoll := poll_next_eq_first_success env cx w pre post s dev hm hpre hs
    have hrs : readySource env w = some s := by
      unfold readySource
      rw [hd]
    rw [hpoll, hrs]
    rfl
  | none =>
    have hall : ∀ x ∈ w.matched_iter, env.probe_device x = none :=
      (drainArrivalsEmit_eq_none env w.matched_iter).mp hd
    cases ht : w.terminated_iter with
    | nil =>
      have hpoll := poll_next_eq_both_empty env cx w hall ht
      have hrs : readySource env w = none := by
        unfold readySource
        rw [hd, ht]
      rw [hpoll, hrs]
      rfl
    | cons s rest =>
      cases hg : env.get_registry_id s with
      | some rid =>
        have hpoll := poll_next_eq_term_success env cx w s rest rid hall ht hg
        have hrs : readySource env w = some s := by
          unfold readySource
          rw [hd, ht]
          simp [hg]
        rw [hpoll, hrs]
        rfl
      | none =>
        have hpoll := poll_next_eq_term_failure env cx w s rest hall ht hg
        have hrs : readySource env w = none := by
          unfold readySource
          rw [hd, ht]
          simp [hg]
        rw [hpoll, hrs]
        rfl

/-- Helper: a sub-permutation of a duplicate-free list is duplicate-free. -/
theorem nodup_of_subperm {l₁ l₂ : List Nat} (h : List.Subperm l₁ l₂)
    (h2 : l₂.Nodup) : l₁.Nodup := by
  obtain ⟨l, hp, hs⟩ := h
  exact hp.nodup_iff.mp (h2.sublist hs)

/-- The simulation invariant: all queued-or-emitted ids are pairwise
distinct, every such id was assigned by some past enqueue (it is below the
fresh-id counter), and every `Ready` result so far is matched by exactly
one emitted id. -/
def SimInv (st : Sim) : Prop :=
  (simIds st).Nodup ∧
  (∀ b ∈ simIds st, b < st.nextId) ∧
  countReady st.results = st.emitted.length

theorem SimInv_init : SimInv sim0 := by
  refine ⟨?_, ?_, rfl⟩
  · simp [simIds, sim0, watchIds]
  · intro b hb
    simp [simIds, sim0, watchIds] at hb

theorem SimInv_step (env : Env Nat) (st : Sim) (op : Op) (h : SimInv st) :
    SimInv (stepSim env st op) := by
  obtain ⟨hnd, hbd, hcr⟩ := h
  cases op with
  | arrival s =>
    have hperm : List.Perm (simIds (stepSim env st (Op.arrival s)))
        (st.nextId :: simIds st) := by
      have hmid := @List.perm_middle Nat st.nextId
        (st.w.matched_iter.map Prod.fst)
        (st.w.terminated_iter.map Prod.fst ++ st.emitted)
      simp only [stepSim, simIds, watchIds, List.map_append, List.map_cons,
        List.map_nil, List.append_assoc, List.singleton_append]
      exact hmid
    have hfresh : st.nextId ∉ simIds st := fun hmem =>
      lt_irrefl st.nextId (hbd st.nextId hmem)
    refine ⟨?_, ?_, ?_⟩
    · exact hperm.nodup_iff.mpr (List.nodup_cons.mpr ⟨hfresh, hnd⟩)
    · intro b hb
      have hb2 := hperm.subset hb
      rcases List.mem_cons.mp hb2 with rfl | hmem
      · simp [stepSim]
      · have := hbd b hmem
        simp only [stepSim]
        omega
    · simpa [stepSim] using hcr
  | termination s =>
    have hperm : List.Perm (simIds (stepSim env st (Op.termination s)))
        (st.nextId :: simIds st) := by
      have hmid := @List.perm_middle Nat st.nextId
        (st.w.terminated_iter.map Prod.fst) st.emitted
      have hmid2 := (List.Perm.append_left (st.w.matched_iter.map Prod.fst) hmid).trans
        (List.perm_middle)
      simpa [stepSim, simIds, watchIds, List.append_assoc] using hmid2
    have hfresh : st.nextId ∉ simIds st := fun hmem =>
      lt_irrefl st.nextId (hbd st.nextId hmem)
    refine ⟨?_, ?_, ?_⟩
    · exact hperm.nodup_iff.mpr (List.nodup_cons.mpr ⟨hfresh, hnd⟩)
    · intro b hb
      have hb2 := hperm.subset hb
      rcases List.mem_cons.mp hb2 with rfl | hmem
      · simp [stepSim]
      · have := hbd b hmem
        simp only [stepSim]
        omega
    · simpa [stepSim] using hcr
  | poll cx =>
    have hsub := poll_next_ids_subperm (tagEnv env) cx st.w st.emitted
    have hids : simIds (stepSim env st (Op.poll cx)) =
        watchIds (poll_next (tagEnv env) cx st.w).2 ++
          (st.emitted ++ ((readySource (tagEnv env) st.w).map Prod.fst).toList) := by
      simp [stepSim, simIds]
    have hnd0 : (watchIds st.w ++ st.emitted).Nodup := hnd
    refine ⟨?_, ?_, ?_⟩
    · rw [hids]
      exact nodup_of_subperm hsub hnd0
    · intro b hb
      rw [hids] at hb
      have hmem : b ∈ watchIds st.w ++ st.emitted := hsub.subset hb
      have hlt : b < st.nextId := hbd b hmem
      simpa [stepSim] using hlt
    · have hready := poll_next_isReady_iff (tagEnv env) cx st.w
      cases hr : readySource (tagEnv env) st.w with
      | some p =>
        have hr1 : isReady (poll_next (tagEnv env) cx st.w).1 = true := by
          rw [hready, hr]
          rfl
        simp [stepSim, countReady, List.filter_append, hr1, hr]
        simpa [countReady] using hcr
      | none =>
        have hr1 : isReady (poll_next (tagEnv env) cx st.w).1 = false := by
          rw [hready, hr]
          rfl
        simp [stepSim, countReady, List.filter_append, hr1, hr]
        simpa [countReady] using hcr

theorem SimInv_runSim (env : Env Nat) (ops : List Op) : SimInv (runSim env ops) := by
  unfold runSim
  have h : ∀ st, SimInv st → SimInv (ops.foldl (stepSim env) st) := by
    induction ops with
    | nil => intro st h; exact h
    | cons op ops ih => intro st h; exact ih _ (SimInv_step env st op h)
  exact h sim0 SimInv_init

/-- C6 — at-most-once delivery.  For every schedule of arrival/termination
enqueues and `poll_next` calls on one watch (each enqueued entry tagged
with a fresh id), the ids of the entries whose consumption produced the
`Ready` returns are pairwise distinct and all stem from actual enqueues,
and every `Ready` return is accounted for by exactly one such id:
`poll_next` never returns `Ready` twice for the same queue entry, because
every inspected entry is consumed from its queue. -/
theorem runSim_at_most_once (env : Env Nat) (ops : List Op) :
    (runSim env ops).emitted.Nodup ∧
    (∀ b ∈ (runSim env ops).emitted, b < (runSim env ops).nextId) ∧
    countReady (runSim env ops).results = (runSim env ops).emitted.length := by
  obtain ⟨hnd, hbd, hcr⟩ := SimInv_runSim env ops
  refine ⟨?_, ?_, hcr⟩
  · have hnd2 : (watchIds (runSim env ops).w ++ (runSim env ops).emitted).Nodup := hnd
    exact hnd2.of_append_right
  · intro b hb
    exact hbd b (List.mem_append_right _ hb)

end Nusb
